import Mathlib

/-!
Verification of the pay-period generator in `pay_periods.py`.

The program's core is `PayPeriods.list(days_per_pay_period,
number_of_pay_periods, start_datetime)`: it builds the list of period
start datetimes (the first by parsing `start_datetime` with
`datetime.fromisoformat`, each later one by adding
`timedelta(days=days_per_pay_period)` to the previous one) and then
renders one label `e_{beg}_{end}` per start, where `beg` is
`strftime("%m%d")` of the start and `end` is `strftime("%m%d")` of the
start plus `timedelta(days=days_per_pay_period - 1)`.

Dates are modelled as Gregorian year/month/day triples.  Python's
`datetime` is bounded: only years `MINYEAR = 1` through `MAXYEAR = 9999`
are representable, and `datetime + timedelta` raises `OverflowError`
when the result leaves that range.  The model therefore distinguishes
the raw value-level day shift (`addDays`, defined by day stepping on
the proleptic calendar) from the checked operation `addDaysChecked`
that the program model uses for every `timedelta` addition:
`addDaysChecked` returns `none` exactly when Python raises
`OverflowError`.  Parsing is modelled for date-only `YYYY-MM-DD`
strings, the only external representation the tool admits (its CLI
validates the pattern `2\d\d\d-\d\d-\d\d` before parsing); parsed dates
are always in range, as `datetime` constructors cannot produce
out-of-range dates.  The Python `ValueError` raised by `fromisoformat`
on an unparseable string is the spec's `InvalidArgument`; both it and
the uncaught `OverflowError` are modelled with `Except`.
-/

namespace PayPeriodsModel

/-- Gregorian leap-year rule, as used by Python's `datetime`. -/
def isLeap (y : Int) : Bool :=
  (y % 4 == 0 && y % 100 != 0) || y % 400 == 0

/-- Number of days in month `m` (1-12) of year `y`. -/
def daysInMonth (y : Int) (m : Nat) : Nat :=
  if m = 2 then (if isLeap y then 29 else 28)
  else if m = 4 ∨ m = 6 ∨ m = 9 ∨ m = 11 then 30
  else 31

/-- A calendar date, as carried by a Python `datetime` (the time-of-day
component is always midnight here and is irrelevant to the program). -/
structure Date where
  year : Int
  month : Nat
  day : Nat
deriving DecidableEq, Repr

/-- The month/day representation invariant of a Python `datetime`:
month 1-12 and day within the month.  Every `datetime` object satisfies
this by construction (its year range is a separate constraint, enforced
by `addDaysChecked` at each arithmetic step). -/
def Date.Valid (d : Date) : Prop :=
  1 ≤ d.month ∧ d.month ≤ 12 ∧ 1 ≤ d.day ∧ d.day ≤ daysInMonth d.year d.month

/-- Value-level calendar successor of a date on the unbounded proleptic
Gregorian calendar.  This is only a helper for expressing date values;
the program model never calls it directly — every `timedelta` addition
in the program goes through `addDaysChecked`, which enforces
`datetime`'s year bounds. -/
def nextDay (d : Date) : Date :=
  if d.day < daysInMonth d.year d.month then ⟨d.year, d.month, d.day + 1⟩
  else if d.month < 12 then ⟨d.year, d.month + 1, 1⟩
  else ⟨d.year + 1, 1, 1⟩

/-- Value-level calendar predecessor on the unbounded proleptic
Gregorian calendar.  Like `nextDay`, a helper only: the program model
reaches it solely through `addDaysChecked`. -/
def prevDay (d : Date) : Date :=
  if 1 < d.day then ⟨d.year, d.month, d.day - 1⟩
  else if 1 < d.month then ⟨d.year, d.month - 1, daysInMonth d.year (d.month - 1)⟩
  else ⟨d.year - 1, 12, 31⟩

/-- Add `n` days to a date, `n : Nat` (value-level helper). -/
def addDaysN : Nat → Date → Date
  | 0, d => d
  | n + 1, d => addDaysN n (nextDay d)

/-- Subtract `n` days from a date, `n : Nat` (value-level helper). -/
def subDaysN : Nat → Date → Date
  | 0, d => d
  | n + 1, d => subDaysN n (prevDay d)

/-- The value a `timedelta(days=k)` shift denotes, for an arbitrary
integer `k`, on the unbounded proleptic calendar.  `datetime` cannot
represent all such values; the checked operation below is the model of
the Python addition itself. -/
def addDays (k : Int) (d : Date) : Date :=
  match k with
  | Int.ofNat n => addDaysN n d
  | Int.negSucc n => subDaysN (n + 1) d

/-- Python's `dt + timedelta(days=k)`: produces the shifted date when it
lies within `datetime`'s supported range (years `MINYEAR = 1` to
`MAXYEAR = 9999`), and raises `OverflowError` — modelled as `none` —
otherwise.  Every date addition performed by the program is modelled
with this operation. -/
def addDaysChecked (k : Int) (d : Date) : Option Date :=
  if 1 ≤ (addDays k d).year ∧ (addDays k d).year ≤ 9999 then some (addDays k d)
  else none

/-- Split a character list on a separator character (used to model the
`-` separation of an ISO date string). -/
def splitOnChar (sep : Char) : List Char → List (List Char)
  | [] => [[]]
  | c :: rest =>
    match splitOnChar sep rest with
    | [] => if c = sep then [[], []] else [[c]]
    | h :: t => if c = sep then [] :: h :: t else (c :: h) :: t

/-- Numeric value of a list of decimal digit characters. -/
def digitsVal (l : List Char) : Nat :=
  l.foldl (fun a c => a * 10 + (c.toNat - 48)) 0

/-- Read a field of exactly `len` decimal digits. -/
def parseFixedNat (l : List Char) (len : Nat) : Option Nat :=
  if l.length = len ∧ l.all Char.isDigit then some (digitsVal l) else none

/-- Build a date from numeric year/month/day fields, rejecting
out-of-range components exactly as the `datetime` constructor does
(`MINYEAR = 1`, month 1-12, day within the month; a four-digit year
field never exceeds `MAXYEAR = 9999`). -/
def mkValidDate (y m d : Nat) : Option Date :=
  if 1 ≤ y ∧ 1 ≤ m ∧ m ≤ 12 ∧ 1 ≤ d ∧ d ≤ daysInMonth (Int.ofNat y) m then
    some ⟨Int.ofNat y, m, d⟩
  else none

/-- Model of `datetime.fromisoformat` on date-only strings: accepts
exactly `YYYY-MM-DD` with a real calendar date, returns `none` (the
Python `ValueError`) otherwise. -/
def fromisoformat (s : String) : Option Date :=
  match splitOnChar '-' s.data with
  | [ys, ms, ds] =>
    match parseFixedNat ys 4, parseFixedNat ms 2, parseFixedNat ds 2 with
    | some y, some m, some d => mkValidDate y m d
    | _, _, _ => none
  | _ => none

/-- The decimal digit character for `n < 10`. -/
def digitChar (n : Nat) : Char := Char.ofNat (48 + n)

/-- Zero-padded two-digit decimal rendering, for values below 100; this
is what `%m` and `%d` produce for a month (1-12) or day (1-31). -/
def pad2 (n : Nat) : String :=
  String.mk [digitChar (n / 10 % 10), digitChar (n % 10)]

/-- `dt.strftime("%m%d")`: zero-padded month then zero-padded day. -/
def strftimeMMDD (d : Date) : String := pad2 d.month ++ pad2 d.day

/-- One element of the returned list: the dictionary
`{"pay_period": item}`. -/
structure PeriodRecord where
  pay_period : String
deriving DecidableEq, Repr

/-- The error outcomes of the generator: `invalidArgument` is Python's
`ValueError` from `datetime.fromisoformat` (the spec's InvalidArgument),
carrying the offending start string; `overflow` is Python's uncaught
`OverflowError` from a `datetime + timedelta` whose result leaves the
supported years 1-9999. -/
inductive GenError where
  | invalidArgument : String → GenError
  | overflow : GenError
deriving DecidableEq, Repr

/-- One pay-period label: `f"e_{beg}_{end}"` where `beg` formats the
period's start and `end` formats the start plus
`timedelta(days=days_per_pay_period - 1)` — a checked addition that can
raise `OverflowError` (`none`). -/
def mkLabel (days_per_pay_period : Int) (w : Date) : Option String :=
  match addDaysChecked (days_per_pay_period - 1) w with
  | none => none
  | some e => some ("e_" ++ strftimeMMDD w ++ "_" ++ strftimeMMDD e)

/-- Iterations 2..n+1 of the first loop of `PayPeriods.list`: starting
from the previous work datetime `d`, each iteration performs one checked
`+ timedelta(days=days_per_pay_period)` and appends the result; `none`
models the loop aborting with `OverflowError`. -/
def workDatetimesAux (days_per_pay_period : Int) (d : Date) : Nat → Option (List Date)
  | 0 => some []
  | n + 1 =>
    match addDaysChecked days_per_pay_period d with
    | none => none
    | some d2 =>
      match workDatetimesAux days_per_pay_period d2 n with
      | none => none
      | some l => some (d2 :: l)

/-- The first loop of `PayPeriods.list`: the list
`[d, d + dpp days, d + 2*dpp days, ...]` of `n` period start datetimes,
seeded with the parsed start date (iteration 1 performs no addition),
or `none` when one of the `n - 1` checked additions overflows. -/
def workDatetimes (days_per_pay_period : Int) (d : Date) : Nat → Option (List Date)
  | 0 => some []
  | n + 1 =>
    match workDatetimesAux days_per_pay_period d n with
    | none => none
    | some l => some (d :: l)

/-- The second loop of `PayPeriods.list`: renders one `e_MMDD_MMDD`
record per start datetime; `none` models the loop aborting with
`OverflowError` from the end-date addition. -/
def renderAll (days_per_pay_period : Int) : List Date → Option (List PeriodRecord)
  | [] => some []
  | w :: rest =>
    match mkLabel days_per_pay_period w with
    | none => none
    | some lab =>
      match renderAll days_per_pay_period rest with
      | none => none
      | some rs => some (PeriodRecord.mk lab :: rs)

/-- `PayPeriods.list`.  The first loop runs
`range(number_of_pay_periods)` times (zero times when the count is
non-positive) and parses `start_datetime` only on its first iteration;
the second loop renders one record per start datetime.  A `ValueError`
from parsing or an `OverflowError` from either loop propagates out of
the function, which then returns nothing. -/
def PayPeriods.list (days_per_pay_period : Int) (number_of_pay_periods : Int)
    (start_datetime : String) : Except GenError (List PeriodRecord) :=
  if number_of_pay_periods.toNat = 0 then Except.ok []
  else
    match fromisoformat start_datetime with
    | none => Except.error (GenError.invalidArgument start_datetime)
    | some d0 =>
      match workDatetimes days_per_pay_period d0 number_of_pay_periods.toNat with
      | none => Except.error GenError.overflow
      | some ws =>
        match renderAll days_per_pay_period ws with
        | none => Except.error GenError.overflow
        | some rs => Except.ok rs

/-- Chronological (lexicographic year, month, day) strict order on
dates; agrees with `datetime` comparison for the midnight datetimes the
program manipulates. -/
def Date.Lt (a b : Date) : Prop :=
  a.year < b.year ∨
    (a.year = b.year ∧ (a.month < b.month ∨ (a.month = b.month ∧ a.day < b.day)))

/-- `e_\d{4}_\d{4}`: the label pattern from the spec, checked
character by character. -/
def labelPattern (s : String) : Bool :=
  match s.data with
  | [c0, c1, c2, c3, c4, c5, c6, c7, c8, c9, c10] =>
    c0 == 'e' && c1 == '_' && c2.isDigit && c3.isDigit && c4.isDigit && c5.isDigit &&
      c6 == '_' && c7.isDigit && c8.isDigit && c9.isDigit && c10.isDigit
  | _ => false

/-- Spec formulation of the start of period `i` (0-indexed):
`periodStart_i = startDate + i * daysPerPeriod days`. -/
def specPeriodStart (startDate : Date) (daysPerPeriod : Nat) (i : Nat) : Date :=
  addDaysN (i * daysPerPeriod) startDate

/-- Spec formulation of the end of period `i`:
`periodEnd_i = periodStart_i + (daysPerPeriod - 1) days`. -/
def specPeriodEnd (startDate : Date) (daysPerPeriod : Nat) (i : Nat) : Date :=
  addDaysN (daysPerPeriod - 1) (specPeriodStart startDate daysPerPeriod i)

deriving instance DecidableEq for Except

example : fromisoformat "2026-01-01" = some ⟨2026, 1, 1⟩ := by decide
example : fromisoformat "2026-02-30" = none := by decide
example : fromisoformat "2026/01/01" = none := by decide
example : addDaysN 7 ⟨2026, 12, 28⟩ = ⟨2027, 1, 4⟩ := by decide
example : addDaysChecked 7 ⟨9999, 12, 28⟩ = none := by decide
example : addDaysChecked (-1) ⟨1, 1, 1⟩ = none := by decide
example : PayPeriods.list 7 2 "2026-12-28" =
    Except.ok [PeriodRecord.mk "e_1228_0103", PeriodRecord.mk "e_0104_0110"] := by decide
example : PayPeriods.list 14 3 "2026-01-01" =
    Except.ok [PeriodRecord.mk "e_0101_0114", PeriodRecord.mk "e_0115_0128",
      PeriodRecord.mk "e_0129_0211"] := by decide
example : PayPeriods.list 1 1 "2026-06-15" =
    Except.ok [PeriodRecord.mk "e_0615_0615"] := by decide
example : PayPeriods.list 4 1 "9999-12-30" = Except.error GenError.overflow := by decide

/-! ### Calendar arithmetic lemmas -/

lemma one_le_daysInMonth (y : Int) (m : Nat) : 1 ≤ daysInMonth y m := by
  unfold daysInMonth
  split_ifs <;> omega

lemma daysInMonth_twelve (y : Int) : daysInMonth y 12 = 31 := by
  simp [daysInMonth]

lemma valid_mk (y : Int) (m dd : Nat) (h1 : 1 ≤ m) (h2 : m ≤ 12) (h3 : 1 ≤ dd)
    (h4 : dd ≤ daysInMonth y m) : (Date.mk y m dd).Valid :=
  ⟨h1, h2, h3, h4⟩

lemma valid_nextDay (d : Date) (h : d.Valid) : (nextDay d).Valid := by
  obtain ⟨h1, h2, h3, h4⟩ := h
  unfold nextDay
  split_ifs with hA hB
  · exact valid_mk _ _ _ h1 h2 (by omega) (by omega)
  · exact valid_mk _ _ _ (by omega) (by omega) (le_refl 1) (one_le_daysInMonth _ _)
  · exact valid_mk _ _ _ (le_refl 1) (by omega) (le_refl 1) (one_le_daysInMonth _ _)

lemma valid_prevDay (d : Date) (h : d.Valid) : (prevDay d).Valid := by
  obtain ⟨h1, h2, h3, h4⟩ := h
  unfold prevDay
  split_ifs with hA hB
  · exact valid_mk _ _ _ h1 h2 (by omega) (by omega)
  · exact valid_mk _ _ _ (by omega) (by omega) (one_le_daysInMonth _ _) (le_refl _)
  · exact valid_mk _ _ _ (by omega) (by omega) (by omega) (by rw [daysInMonth_twelve])

lemma valid_addDaysN (n : Nat) (d : Date) (h : d.Valid) : (addDaysN n d).Valid := by
  induction n generalizing d with
  | zero => exact h
  | succ n ih => exact ih (nextDay d) (valid_nextDay d h)

lemma valid_subDaysN (n : Nat) (d : Date) (h : d.Valid) : (subDaysN n d).Valid := by
  induction n generalizing d with
  | zero => exact h
  | succ n ih => exact ih (prevDay d) (valid_prevDay d h)

lemma valid_addDays (k : Int) (d : Date) (h : d.Valid) : (addDays k d).Valid := by
  cases k with
  | ofNat n => exact valid_addDaysN n d h
  | negSucc n => exact valid_subDaysN (n + 1) d h

lemma addDaysN_succ' (n : Nat) (d : Date) :
    addDaysN (n + 1) d = nextDay (addDaysN n d) := by
  induction n generalizing d with
  | zero => rfl
  | succ n ih => exact ih (nextDay d)

lemma subDaysN_succ' (n : Nat) (d : Date) :
    subDaysN (n + 1) d = prevDay (subDaysN n d) := by
  induction n generalizing d with
  | zero => rfl
  | succ n ih => exact ih (prevDay d)

lemma addDaysN_add (a b : Nat) (d : Date) :
    addDaysN (a + b) d = addDaysN a (addDaysN b d) := by
  induction a with
  | zero => simp [addDaysN]
  | succ a ih =>
    have h1 : a + 1 + b = a + b + 1 := by omega
    rw [h1, addDaysN_succ', ih, ← addDaysN_succ']

lemma addDays_eq_addDaysN (k : Int) (hk : 0 ≤ k) (d : Date) :
    addDays k d = addDaysN k.toNat d := by
  cases k with
  | ofNat n => rfl
  | negSucc n => exact absurd hk (Int.negSucc_lt_zero n).not_le

lemma iterate_addDays_toNat (k : Int) (hk : 0 ≤ k) (i : Nat) (d : Date) :
    (addDays k)^[i] d = addDaysN (i * k.toNat) d := by
  induction i generalizing d with
  | zero => simp [addDaysN]
  | succ i ih =>
    rw [Function.iterate_succ_apply, addDays_eq_addDaysN k hk, ih]
    rw [show (i + 1) * k.toNat = i * k.toNat + k.toNat from by rw [Nat.succ_mul]]
    rw [addDaysN_add]

lemma valid_iterate_addDays (k : Int) (d : Date) (hv : d.Valid) (j : Nat) :
    ((addDays k)^[j] d).Valid := by
  induction j with
  | zero => simpa using hv
  | succ j ih =>
    rw [Function.iterate_succ_apply']
    exact valid_addDays k _ ih

/-! ### Chronological order lemmas -/

lemma date_lt_trans (a b c : Date) (h1 : Date.Lt a b) (h2 : Date.Lt b c) :
    Date.Lt a c := by
  unfold Date.Lt at *
  rcases h1 with h1 | ⟨e1, h1⟩
  · rcases h2 with h2 | ⟨e2, h2⟩
    · exact Or.inl (lt_trans h1 h2)
    · exact Or.inl (e2 ▸ h1)
  · rcases h2 with h2 | ⟨e2, h2⟩
    · exact Or.inl (e1 ▸ h2)
    · refine Or.inr ⟨e1.trans e2, ?_⟩
      rcases h1 with h1 | ⟨f1, h1⟩ <;> rcases h2 with h2 | ⟨f2, h2⟩
      · exact Or.inl (lt_trans h1 h2)
      · exact Or.inl (f2 ▸ h1)
      · exact Or.inl (f1 ▸ h2)
      · exact Or.inr ⟨f1.trans f2, lt_trans h1 h2⟩

lemma lt_mk (a : Date) (y : Int) (m dd : Nat)
    (h : a.year < y ∨ (a.year = y ∧ (a.month < m ∨ (a.month = m ∧ a.day < dd)))) :
    Date.Lt a (Date.mk y m dd) := h

lemma mk_lt (y : Int) (m dd : Nat) (b : Date)
    (h : y < b.year ∨ (y = b.year ∧ (m < b.month ∨ (m = b.month ∧ dd < b.day)))) :
    Date.Lt (Date.mk y m dd) b := h

lemma lt_nextDay (d : Date) (h : d.Valid) : Date.Lt d (nextDay d) := by
  obtain ⟨h1, h2, h3, h4⟩ := h
  unfold nextDay
  split_ifs with hA hB
  · exact lt_mk _ _ _ _ (Or.inr ⟨rfl, Or.inr ⟨rfl, by omega⟩⟩)
  · exact lt_mk _ _ _ _ (Or.inr ⟨rfl, Or.inl (by omega)⟩)
  · exact lt_mk _ _ _ _ (Or.inl (by omega))

lemma lt_prevDay (d : Date) (h : d.Valid) : Date.Lt (prevDay d) d := by
  obtain ⟨h1, h2, h3, h4⟩ := h
  unfold prevDay
  split_ifs with hA hB
  · exact mk_lt _ _ _ _ (Or.inr ⟨rfl, Or.inr ⟨rfl, by omega⟩⟩)
  · exact mk_lt _ _ _ _ (Or.inr ⟨rfl, Or.inl (by omega)⟩)
  · exact mk_lt _ _ _ _ (Or.inl (by omega))

lemma lt_addDaysN (k : Nat) (d : Date) (hk : 1 ≤ k) (hv : d.Valid) :
    Date.Lt d (addDaysN k d) := by
  induction k with
  | zero => omega
  | succ k ih =>
    rw [addDaysN_succ']
    rcases Nat.eq_zero_or_pos k with h | h
    · subst h
      exact lt_nextDay d hv
    · exact date_lt_trans _ _ _ (ih h) (lt_nextDay _ (valid_addDaysN k d hv))

lemma lt_subDaysN (k : Nat) (d : Date) (hk : 1 ≤ k) (hv : d.Valid) :
    Date.Lt (subDaysN k d) d := by
  induction k with
  | zero => omega
  | succ k ih =>
    rw [subDaysN_succ']
    rcases Nat.eq_zero_or_pos k with h | h
    · subst h
      exact lt_prevDay d hv
    · exact date_lt_trans _ _ _ (lt_prevDay _ (valid_subDaysN k d hv)) (ih h)

lemma addDays_natCast (n : Nat) (d : Date) : addDays (n : Int) d = addDaysN n d := rfl

lemma lt_addDays_pos (k : Int) (d : Date) (hk : 1 ≤ k) (hv : d.Valid) :
    Date.Lt d (addDays k d) := by
  have h1 : k = (k.toNat : Int) := (Int.toNat_of_nonneg (by omega)).symm
  rw [h1, addDays_natCast]
  exact lt_addDaysN k.toNat d (by omega) hv

lemma lt_addDays_neg (k : Int) (d : Date) (hk : k < 0) (hv : d.Valid) :
    Date.Lt (addDays k d) d := by
  cases k with
  | ofNat n => exact absurd hk (Int.ofNat_nonneg n).not_lt
  | negSucc n => exact lt_subDaysN (n + 1) d (by omega) hv

/-! ### Checked-addition and work-datetime lemmas -/

lemma addDaysChecked_some (k : Int) (d e : Date) (h : addDaysChecked k d = some e) :
    e = addDays k d := by
  unfold addDaysChecked at h
  split_ifs at h
  exact (Option.some.inj h).symm

lemma workDatetimesAux_zero (dpp : Int) (d : Date) :
    workDatetimesAux dpp d 0 = some [] := rfl

lemma workDatetimesAux_succ (dpp : Int) (d : Date) (n : Nat) :
    workDatetimesAux dpp d (n + 1) =
      match addDaysChecked dpp d with
      | none => none
      | some d2 =>
        match workDatetimesAux dpp d2 n with
        | none => none
        | some l => some (d2 :: l) := rfl

lemma workDatetimes_zero (dpp : Int) (d : Date) :
    workDatetimes dpp d 0 = some [] := rfl

lemma workDatetimes_succ (dpp : Int) (d : Date) (n : Nat) :
    workDatetimes dpp d (n + 1) =
      match workDatetimesAux dpp d n with
      | none => none
      | some l => some (d :: l) := rfl

lemma workDatetimesAux_some (dpp : Int) :
    ∀ (n : Nat) (d : Date) (l : List Date), workDatetimesAux dpp d n = some l →
      l.length = n ∧ ∀ i, i < n → l[i]? = some ((addDays dpp)^[i + 1] d) := by
  intro n
  induction n with
  | zero =>
    intro d l h
    rw [workDatetimesAux_zero] at h
    injection h with h2
    subst h2
    exact ⟨rfl, by intro i hi; omega⟩
  | succ n ih =>
    intro d l h
    rw [workDatetimesAux_succ] at h
    split at h
    · exact absurd h (by simp)
    · rename_i d2 hd2
      split at h
      · exact absurd h (by simp)
      · rename_i l' hl'
        injection h with h2
        subst h2
        obtain ⟨ihlen, ihidx⟩ := ih d2 l' hl'
        have hd2e : d2 = addDays dpp d := addDaysChecked_some dpp d d2 hd2
        constructor
        · simp [ihlen]
        · intro i hi
          cases i with
          | zero =>
            simp only [List.getElem?_cons_zero]
            rw [hd2e]
            rfl
          | succ i =>
            simp only [List.getElem?_cons_succ]
            rw [ihidx i (by omega), hd2e]
            rfl

lemma workDatetimes_some (dpp : Int) (d : Date) (n : Nat) (ws : List Date)
    (h : workDatetimes dpp d n = some ws) :
    ws.length = n ∧ ∀ i, i < n → ws[i]? = some ((addDays dpp)^[i] d) := by
  cases n with
  | zero =>
    rw [workDatetimes_zero] at h
    injection h with h2
    subst h2
    exact ⟨rfl, by intro i hi; omega⟩
  | succ n =>
    rw [workDatetimes_succ] at h
    split at h
    · exact absurd h (by simp)
    · rename_i l hl
      injection h with h2
      subst h2
      obtain ⟨alen, aidx⟩ := workDatetimesAux_some dpp n d l hl
      constructor
      · simp [alen]
      · intro i hi
        cases i with
        | zero => simp
        | succ i =>
          simp only [List.getElem?_cons_succ]
          rw [aidx i (by omega)]

lemma chain'_workDatetimes (dpp : Int) (hd : 1 ≤ dpp) (n : Nat) (d : Date)
    (hv : d.Valid) (ws : List Date) (hws : workDatetimes dpp d n = some ws) :
    List.Chain' Date.Lt ws := by
  obtain ⟨hlen, hidx⟩ := workDatetimes_some dpp d n ws hws
  rw [List.chain'_iff_get]
  intro i hi
  have e1 : ws.get ⟨i, by omega⟩ = (addDays dpp)^[i] d := by
    rw [List.get_eq_getElem, ← Option.some_inj, ← List.getElem?_eq_getElem]
    exact hidx i (by omega)
  have e2 : ws.get ⟨i + 1, by omega⟩ = (addDays dpp)^[i + 1] d := by
    rw [List.get_eq_getElem, ← Option.some_inj, ← List.getElem?_eq_getElem]
    exact hidx (i + 1) (by omega)
  rw [e1, e2, Function.iterate_succ_apply']
  exact lt_addDays_pos dpp _ hd (valid_iterate_addDays dpp d hv i)

/-! ### Parsing lemmas -/

lemma mkValidDate_valid (y m d : Nat) (dt : Date) (h : mkValidDate y m d = some dt) :
    dt.Valid := by
  unfold mkValidDate at h
  split_ifs at h with hc
  obtain ⟨c1, c2, c3, c4, c5⟩ := hc
  cases h
  exact ⟨c2, c3, c4, c5⟩

lemma fromisoformat_valid (s : String) (dt : Date) (h : fromisoformat s = some dt) :
    dt.Valid := by
  unfold fromisoformat at h
  split at h
  · split at h
    · exact mkValidDate_valid _ _ _ _ h
    · exact absurd h (by simp)
  · exact absurd h (by simp)

/-! ### Label and rendering lemmas -/

lemma isDigit_digitChar (n : Nat) (h : n < 10) : (digitChar n).isDigit = true := by
  interval_cases n <;> decide

lemma labelPattern_concat (w e : Date) :
    labelPattern ("e_" ++ strftimeMMDD w ++ "_" ++ strftimeMMDD e) = true := by
  have h : ∀ n : Nat, (digitChar (n % 10)).isDigit = true := fun n =>
    isDigit_digitChar _ (Nat.mod_lt _ (by omega))
  show (('e' == 'e') && ('_' == '_') &&
      (digitChar (w.month / 10 % 10)).isDigit && (digitChar (w.month % 10)).isDigit &&
      (digitChar (w.day / 10 % 10)).isDigit && (digitChar (w.day % 10)).isDigit &&
      ('_' == '_') &&
      (digitChar (e.month / 10 % 10)).isDigit && (digitChar (e.month % 10)).isDigit &&
      (digitChar (e.day / 10 % 10)).isDigit && (digitChar (e.day % 10)).isDigit) = true
  simp only [h, beq_self_eq_true, Bool.and_self, Bool.and_true, Bool.true_and]

lemma mkLabel_some_inv (dpp : Int) (w : Date) (lab : String)
    (h : mkLabel dpp w = some lab) :
    ∃ e, addDaysChecked (dpp - 1) w = some e ∧
      lab = "e_" ++ strftimeMMDD w ++ "_" ++ strftimeMMDD e := by
  unfold mkLabel at h
  split at h
  · exact absurd h (by simp)
  · rename_i e he
    exact ⟨e, he, (Option.some.inj h).symm⟩

lemma mkLabel_pattern (dpp : Int) (w : Date) (lab : String)
    (h : mkLabel dpp w = some lab) : labelPattern lab = true := by
  obtain ⟨e, he, hlab⟩ := mkLabel_some_inv dpp w lab h
  rw [hlab]
  exact labelPattern_concat w e

lemma renderAll_inv (dpp : Int) :
    ∀ (ws : List Date) (rs : List PeriodRecord), renderAll dpp ws = some rs →
      rs.length = ws.length ∧
      ∀ (i : Nat) (w : Date), ws[i]? = some w →
        ∃ lab, mkLabel dpp w = some lab ∧ rs[i]? = some (PeriodRecord.mk lab) := by
  intro ws
  induction ws with
  | nil =>
    intro rs h
    unfold renderAll at h
    injection h with h2
    subst h2
    refine ⟨rfl, ?_⟩
    intro i w hw
    simp at hw
  | cons w0 ws' ih =>
    intro rs h
    unfold renderAll at h
    split at h
    · exact absurd h (by simp)
    · rename_i lab0 hlab0
      split at h
      · exact absurd h (by simp)
      · rename_i rs' hrs'
        injection h with h2
        subst h2
        obtain ⟨ihlen, ihidx⟩ := ih rs' hrs'
        refine ⟨by simp [ihlen], ?_⟩
        intro i w hw
        cases i with
        | zero =>
          simp only [List.getElem?_cons_zero] at hw
          injection hw with h3
          subst h3
          refine ⟨lab0, hlab0, ?_⟩
          simp
        | succ i =>
          simp only [List.getElem?_cons_succ] at hw
          obtain ⟨lab, hl1, hl2⟩ := ihidx i w hw
          refine ⟨lab, hl1, ?_⟩
          simp only [List.getElem?_cons_succ]
          exact hl2

/-! ### Unfolding equations for the generator -/

lemma list_eq_nil_of_toNat_zero (dpp cnt : Int) (s : String) (hc : cnt.toNat = 0) :
    PayPeriods.list dpp cnt s = Except.ok [] := by
  unfold PayPeriods.list
  rw [if_pos hc]

lemma list_eq_error_of_parse_fail (dpp cnt : Int) (s : String)
    (hc : cnt.toNat ≠ 0) (hp : fromisoformat s = none) :
    PayPeriods.list dpp cnt s = Except.error (GenError.invalidArgument s) := by
  unfold PayPeriods.list
  rw [if_neg hc, hp]

lemma list_ok_inv (dpp cnt : Int) (s : String) (d0 : Date) (l : List PeriodRecord)
    (hc : cnt.toNat ≠ 0) (hp : fromisoformat s = some d0)
    (hl : PayPeriods.list dpp cnt s = Except.ok l) :
    ∃ ws, workDatetimes dpp d0 cnt.toNat = some ws ∧ renderAll dpp ws = some l := by
  unfold PayPeriods.list at hl
  rw [if_neg hc, hp] at hl
  split at hl
  · exact absurd hl (by simp)
  · rename_i d1 hd1
    split at hl
    · exact absurd hl (by simp)
    · rename_i ws hws
      split at hl
      · exact absurd hl (by simp)
      · rename_i rs hrs
        injection hl with h2
        subst h2
        have hd : d1 = d0 := (Option.some.inj hd1).symm
        subst hd
        exact ⟨ws, hws, hrs⟩

lemma list_no_invalidArgument (dpp cnt : Int) (s : String) (d0 : Date)
    (hp : fromisoformat s = some d0) (m : String) :
    PayPeriods.list dpp cnt s ≠ Except.error (GenError.invalidArgument m) := by
  unfold PayPeriods.list
  split_ifs with h0
  · simp
  · rw [hp]
    rcases hws : workDatetimes dpp d0 cnt.toNat with _ | ws
    · simp [hws]
    · rcases hrs : renderAll dpp ws with _ | rs
      · simp [hws, hrs]
      · simp [hws, hrs]

lemma list_overflow_or_ok (dpp cnt : Int) (s : String) (d0 : Date)
    (hp : fromisoformat s = some d0) :
    PayPeriods.list dpp cnt s = Except.error GenError.overflow ∨
    ∃ l, PayPeriods.list dpp cnt s = Except.ok l := by
  unfold PayPeriods.list
  split_ifs with h0
  · exact Or.inr ⟨[], rfl⟩
  · rw [hp]
    rcases hws : workDatetimes dpp d0 cnt.toNat with _ | ws
    · exact Or.inl (by simp [hws])
    · rcases hrs : renderAll dpp ws with _ | rs
      · exact Or.inl (by simp [hws, hrs])
      · exact Or.inr ⟨rs, by simp [hws, hrs]⟩

/-! ### Claim theorems -/

/-- Claim C1: for every valid input (`daysPerPeriod ≥ 1`, `periodCount ≥ 0`,
parseable `YYYY-MM-DD` start date) and every adjacent pair of generated
periods `i` and `i + 1`, the start date of period `i + 1` equals the end date
of period `i` (its start plus `daysPerPeriod - 1` days) plus one day, and the
start of period `i` is `startDate + i * daysPerPeriod` days: the periods are
contiguous and non-overlapping.  `ws` is the list of period start datetimes
the first loop generated. -/
theorem periods_contiguous (dpp cnt : Int) (s : String) (d0 : Date)
    (ws : List Date) (i : Nat) (w : Date)
    (hd : 1 ≤ dpp) (hc : 0 ≤ cnt) (hp : fromisoformat s = some d0)
    (hws : workDatetimes dpp d0 cnt.toNat = some ws)
    (hi : i + 1 < cnt.toNat) (hw : ws[i]? = some w) :
    ws[i + 1]? = some (addDaysN 1 (addDays (dpp - 1) w)) ∧
    w = addDaysN (i * dpp.toNat) d0 := by
  obtain ⟨hlen, hidx⟩ := workDatetimes_some dpp d0 cnt.toNat ws hws
  have h0 : 0 ≤ dpp := by omega
  have hiw := hidx i (by omega)
  rw [hw] at hiw
  have hwe : w = addDaysN (i * dpp.toNat) d0 := by
    have h1 := Option.some.inj hiw
    rw [h1, iterate_addDays_toNat dpp h0]
  refine ⟨?_, hwe⟩
  rw [hidx (i + 1) hi, iterate_addDays_toNat dpp h0,
    addDays_eq_addDaysN (dpp - 1) (by omega), hwe, ← addDaysN_add, ← addDaysN_add]
  rw [show (i + 1) * dpp.toNat = 1 + (dpp - 1).toNat + i * dpp.toNat from by
    rw [Nat.succ_mul]; omega]

/-- Witness for C1 at `daysPerPeriod = 7`, `periodCount = 2`,
`startDate = "2026-12-28"`, adjacent pair `i = 0`. -/
theorem periods_contiguous_witness :
    workDatetimes 7 ⟨2026, 12, 28⟩ (Int.toNat 2) =
      some [⟨2026, 12, 28⟩, ⟨2027, 1, 4⟩] ∧
    ([⟨2026, 12, 28⟩, ⟨2027, 1, 4⟩] : List Date)[0 + 1]? =
      some (addDaysN 1 (addDays (7 - 1) ⟨2026, 12, 28⟩)) ∧
    (⟨2026, 12, 28⟩ : Date) = addDaysN (0 * Int.toNat 7) ⟨2026, 12, 28⟩ := by
  have h := periods_contiguous 7 2 "2026-12-28" ⟨2026, 12, 28⟩
    [⟨2026, 12, 28⟩, ⟨2027, 1, 4⟩] 0 ⟨2026, 12, 28⟩
    (by decide) (by decide) (by decide) (by decide) (by decide) (by decide)
  exact ⟨by decide, h.1, h.2⟩

/-- Claim C2, counterexample: at `daysPerPeriod = 7`, `periodCount = 2`,
`startDate = "9999-12-28"` — a parseable calendar date — the second loop
iteration's `+ timedelta(days=7)` leaves `datetime`'s supported years
(`MAXYEAR = 9999`), so the program raises `OverflowError` and returns no
sequence at all, contradicting the claim that every valid input yields
exactly `periodCount` labels.  (The same failure is reachable through the
CLI's regex-gated dates, e.g. `periodCount = 210000` from `2026-01-01`.) -/
theorem overflow_counterexample :
    PayPeriods.list 7 2 "9999-12-28" = Except.error GenError.overflow := by
  decide

/-- Claim C2, amended: for every valid input, `generate` either raises
`OverflowError` (when a computed date leaves `datetime`'s supported years
1-9999) or returns a sequence; whenever it returns a sequence, that sequence
has exactly `periodCount` labels, one per period start datetime in the order
the starts were generated, and those start datetimes are in strictly
ascending chronological order. -/
theorem generate_count_and_order (dpp cnt : Int) (s : String) (d0 : Date)
    (hd : 1 ≤ dpp) (hc : 0 ≤ cnt) (hp : fromisoformat s = some d0) :
    (PayPeriods.list dpp cnt s = Except.error GenError.overflow ∨
      ∃ l, PayPeriods.list dpp cnt s = Except.ok l) ∧
    ∀ l, PayPeriods.list dpp cnt s = Except.ok l →
      (l.length : Int) = cnt ∧
      ∃ ws, workDatetimes dpp d0 cnt.toNat = some ws ∧
        List.Chain' Date.Lt ws ∧
        ∀ (i : Nat) (w : Date), ws[i]? = some w →
          ∃ lab, mkLabel dpp w = some lab ∧ l[i]? = some (PeriodRecord.mk lab) := by
  refine ⟨list_overflow_or_ok dpp cnt s d0 hp, ?_⟩
  intro l hl
  rcases Nat.eq_zero_or_pos cnt.toNat with h | h
  · rw [list_eq_nil_of_toNat_zero dpp cnt s h] at hl
    injection hl with h2
    subst h2
    refine ⟨by simpa using by omega, [], by rw [h]; exact workDatetimes_zero dpp d0, List.chain'_nil, ?_⟩
    intro i w hw
    simp at hw
  · obtain ⟨ws, hws, hrs⟩ := list_ok_inv dpp cnt s d0 l (by omega) hp hl
    obtain ⟨hlen, hidx⟩ := renderAll_inv dpp ws l hrs
    obtain ⟨hwlen, hwidx⟩ := workDatetimes_some dpp d0 cnt.toNat ws hws
    refine ⟨by rw [hlen, hwlen]; omega, ws, hws, ?_, hidx⟩
    exact chain'_workDatetimes dpp hd cnt.toNat d0 (fromisoformat_valid s d0 hp)
      ws hws

/-- Witness for the amended C2 at `daysPerPeriod = 14`, `periodCount = 3`,
`startDate = "2026-01-01"`. -/
theorem generate_count_and_order_witness :
    (PayPeriods.list 14 3 "2026-01-01" = Except.error GenError.overflow ∨
      ∃ l, PayPeriods.list 14 3 "2026-01-01" = Except.ok l) ∧
    ∀ l, PayPeriods.list 14 3 "2026-01-01" = Except.ok l →
      (l.length : Int) = 3 ∧
      ∃ ws, workDatetimes 14 ⟨2026, 1, 1⟩ (Int.toNat 3) = some ws ∧
        List.Chain' Date.Lt ws ∧
        ∀ (i : Nat) (w : Date), ws[i]? = some w →
          ∃ lab, mkLabel 14 w = some lab ∧ l[i]? = some (PeriodRecord.mk lab) :=
  generate_count_and_order 14 3 "2026-01-01" ⟨2026, 1, 1⟩
    (by decide) (by decide) (by decide)

/-- Claim C3: for every valid input and every index `i < periodCount`, the
`i`-th period start produced by the code's iterative accumulation equals the
spec's closed form `startDate + i * daysPerPeriod` days, and the code's end
date (`start + timedelta(days=daysPerPeriod - 1)`) equals the spec's
`periodEnd_i`: the two formulations are equivalent.  `ws` is the list of
period start datetimes the first loop generated. -/
theorem iterative_matches_closed_form (dpp cnt : Int) (s : String) (d0 : Date)
    (ws : List Date) (i : Nat)
    (hd : 1 ≤ dpp) (hp : fromisoformat s = some d0)
    (hws : workDatetimes dpp d0 cnt.toNat = some ws) (hi : i < cnt.toNat) :
    ws[i]? = some (specPeriodStart d0 dpp.toNat i) ∧
    addDays (dpp - 1) (specPeriodStart d0 dpp.toNat i) =
      specPeriodEnd d0 dpp.toNat i := by
  obtain ⟨hlen, hidx⟩ := workDatetimes_some dpp d0 cnt.toNat ws hws
  constructor
  · rw [hidx i hi, iterate_addDays_toNat dpp (by omega)]
    rfl
  · rw [addDays_eq_addDaysN (dpp - 1) (by omega),
      show (dpp - 1).toNat = dpp.toNat - 1 from by omega]
    rfl

/-- Witness for C3 at `daysPerPeriod = 14`, `periodCount = 3`,
`startDate = "2026-01-01"`, index `i = 2`. -/
theorem iterative_matches_closed_form_witness :
    ([⟨2026, 1, 1⟩, ⟨2026, 1, 15⟩, ⟨2026, 1, 29⟩] : List Date)[2]? =
      some (specPeriodStart ⟨2026, 1, 1⟩ (Int.toNat 14) 2) ∧
    addDays (14 - 1) (specPeriodStart ⟨2026, 1, 1⟩ (Int.toNat 14) 2) =
      specPeriodEnd ⟨2026, 1, 1⟩ (Int.toNat 14) 2 := by
  have h := iterative_matches_closed_form 14 3 "2026-01-01" ⟨2026, 1, 1⟩
    [⟨2026, 1, 1⟩, ⟨2026, 1, 15⟩, ⟨2026, 1, 29⟩] 2
    (by decide) (by decide) (by decide) (by decide)
  exact ⟨h.1, h.2⟩

/-- Claim C4, counterexample: at `daysPerPeriod = 0`, `periodCount = 1`,
`startDate = "2026-01-01"`, `PayPeriods.list` performs no validation of
`daysPerPeriod` and returns a one-element sequence (the end date lies one day
before the start date), instead of failing with InvalidArgument as the claim
states. -/
theorem nonpositive_days_counterexample :
    PayPeriods.list 0 1 "2026-01-01" =
      Except.ok [PeriodRecord.mk "e_0101_1231"] := by
  decide

/-- Claim C4, amended: for every input with `daysPerPeriod ≤ 0` (and
`periodCount ≥ 0`, parseable start date), `generate` never fails with
InvalidArgument — it performs no validation of `daysPerPeriod`; whenever it
returns a sequence (that is, no date computation left `datetime`'s supported
years 1-9999, which would raise `OverflowError` instead), that sequence has
`periodCount` labels and each period's end date lies strictly before its
start date. -/
theorem nonpositive_days_no_error (dpp cnt : Int) (s : String) (d0 : Date)
    (hd : dpp ≤ 0) (hc : 0 ≤ cnt) (hp : fromisoformat s = some d0) :
    (∀ m : String,
      PayPeriods.list dpp cnt s ≠ Except.error (GenError.invalidArgument m)) ∧
    ∀ l, PayPeriods.list dpp cnt s = Except.ok l →
      (l.length : Int) = cnt ∧
      ∃ ws, workDatetimes dpp d0 cnt.toNat = some ws ∧
        ∀ (i : Nat) (w : Date), ws[i]? = some w →
          ∃ e, addDaysChecked (dpp - 1) w = some e ∧ Date.Lt e w := by
  refine ⟨list_no_invalidArgument dpp cnt s d0 hp, ?_⟩
  intro l hl
  rcases Nat.eq_zero_or_pos cnt.toNat with h | h
  · rw [list_eq_nil_of_toNat_zero dpp cnt s h] at hl
    injection hl with h2
    subst h2
    refine ⟨by simpa using by omega, [], by rw [h]; exact workDatetimes_zero dpp d0, ?_⟩
    intro i w hw
    simp at hw
  · obtain ⟨ws, hws, hrs⟩ := list_ok_inv dpp cnt s d0 l (by omega) hp hl
    obtain ⟨hlen, hidx⟩ := renderAll_inv dpp ws l hrs
    obtain ⟨hwlen, hwidx⟩ := workDatetimes_some dpp d0 cnt.toNat ws hws
    refine ⟨by rw [hlen, hwlen]; omega, ws, hws, ?_⟩
    intro i w hw
    have hiw : i < ws.length := by
      rcases Nat.lt_or_ge i ws.length with h2 | h2
      · exact h2
      · rw [List.getElem?_eq_none h2] at hw
        exact absurd hw (by simp)
    obtain ⟨lab, hlab, hri⟩ := hidx i w hw
    obtain ⟨e, he, hlabe⟩ := mkLabel_some_inv dpp w lab hlab
    have hvw : w.Valid := by
      have h5 := hwidx i (by omega)
      rw [hw] at h5
      rw [Option.some.inj h5]
      exact valid_iterate_addDays dpp d0 (fromisoformat_valid s d0 hp) i
    refine ⟨e, he, ?_⟩
    rw [addDaysChecked_some (dpp - 1) w e he]
    exact lt_addDays_neg (dpp - 1) w (by omega) hvw

/-- Witness for the amended C4 at `daysPerPeriod = 0`, `periodCount = 2`,
`startDate = "2026-01-01"`. -/
theorem nonpositive_days_no_error_witness :
    (∀ m : String,
      PayPeriods.list 0 2 "2026-01-01" ≠ Except.error (GenError.invalidArgument m)) ∧
    ∀ l, PayPeriods.list 0 2 "2026-01-01" = Except.ok l →
      (l.length : Int) = 2 ∧
      ∃ ws, workDatetimes 0 ⟨2026, 1, 1⟩ (Int.toNat 2) = some ws ∧
        ∀ (i : Nat) (w : Date), ws[i]? = some w →
          ∃ e, addDaysChecked (0 - 1) w = some e ∧ Date.Lt e w :=
  nonpositive_days_no_error 0 2 "2026-01-01" ⟨2026, 1, 1⟩
    (by decide) (by decide) (by decide)

/-- Claim C5, counterexample: at `daysPerPeriod = 14`,
`periodCount = -3`, `startDate = "2026-01-01"`, `PayPeriods.list` returns an
empty sequence with no error (Python's `range` of a negative count is empty),
instead of failing with InvalidArgument as the claim states. -/
theorem negative_count_counterexample :
    PayPeriods.list 14 (-3) "2026-01-01" = Except.ok [] := by
  decide

/-- Claim C5, amended: for every input with `periodCount < 0`, `generate`
silently clamps the count and returns an empty sequence with no error, for
any `daysPerPeriod` and any start string. -/
theorem negative_count_empty (dpp cnt : Int) (s : String) (hc : cnt < 0) :
    PayPeriods.list dpp cnt s = Except.ok [] :=
  list_eq_nil_of_toNat_zero dpp cnt s (by omega)

/-- Witness for the amended C5 at `periodCount = -3`. -/
theorem negative_count_empty_witness :
    (-3 : Int) < 0 ∧ PayPeriods.list 14 (-3) "2026-01-01" = Except.ok [] :=
  ⟨by decide, negative_count_empty 14 (-3) "2026-01-01" (by decide)⟩

/-- Claim C6, counterexample: at `periodCount = 0` with the pattern-matching
but non-calendar start string `"2026-02-30"`, `PayPeriods.list` returns an
empty sequence with no error — the start string is parsed only inside the
first loop iteration, which never runs — so the claim's unrestricted "for
every input" quantification fails. -/
theorem invalid_date_zero_count_counterexample :
    PayPeriods.list 14 0 "2026-02-30" = Except.ok [] := by
  decide

/-- Claim C6, amended: for every input with `periodCount ≥ 1` whose start
string is not a parseable calendar date, `generate` fails with
InvalidArgument. -/
theorem invalid_date_errors (dpp cnt : Int) (s : String)
    (hc : 1 ≤ cnt) (hp : fromisoformat s = none) :
    PayPeriods.list dpp cnt s = Except.error (GenError.invalidArgument s) :=
  list_eq_error_of_parse_fail dpp cnt s (by omega) hp

/-- Witness for the amended C6 at `periodCount = 1` and the start string
`"2026-02-30"` (matches the textual pattern, but February has no day 30). -/
theorem invalid_date_errors_witness :
    fromisoformat "2026-02-30" = none ∧
    PayPeriods.list 14 1 "2026-02-30" =
      Except.error (GenError.invalidArgument "2026-02-30") :=
  ⟨by decide, invalid_date_errors 14 1 "2026-02-30" (by decide) (by decide)⟩

/-- Claim C7: for every input with `periodCount = 0`, `generate` returns an
empty sequence and raises no error, whatever `daysPerPeriod` and the start
string are. -/
theorem zero_count_empty (dpp : Int) (s : String) :
    PayPeriods.list dpp 0 s = Except.ok [] :=
  list_eq_nil_of_toNat_zero dpp 0 s rfl

/-- Claim C8: the concrete year-boundary scenario `daysPerPeriod = 7`,
`periodCount = 2`, `startDate = "2026-12-28"` yields exactly
`["e_1228_0103", "e_0104_0110"]`: the first label's dates roll from December
into January within one label and no year is encoded. -/
theorem year_boundary_scenario :
    PayPeriods.list 7 2 "2026-12-28" =
      Except.ok [PeriodRecord.mk "e_1228_0103", PeriodRecord.mk "e_0104_0110"] := by
  decide

/-- Claim C9: for every valid input, every record of the returned sequence has
a `pay_period` string matching `e_\d{4}_\d{4}`: the prefix `e_`, a zero-padded
two-digit month and day of the period's start date, an underscore, and the
same four-digit form for the period's end date. -/
theorem labels_match_pattern (dpp cnt : Int) (s : String) (d0 : Date)
    (hd : 1 ≤ dpp) (hc : 0 ≤ cnt) (hp : fromisoformat s = some d0)
    (l : List PeriodRecord) (hl : PayPeriods.list dpp cnt s = Except.ok l)
    (r : PeriodRecord) (hr : r ∈ l) : labelPattern r.pay_period = true := by
  rcases Nat.eq_zero_or_pos cnt.toNat with h | h
  · rw [list_eq_nil_of_toNat_zero dpp cnt s h] at hl
    injection hl with h2
    subst h2
    exact absurd hr (List.not_mem_nil r)
  · obtain ⟨ws, hws, hrs⟩ := list_ok_inv dpp cnt s d0 l (by omega) hp hl
    obtain ⟨hlen, hidx⟩ := renderAll_inv dpp ws l hrs
    obtain ⟨i, hi⟩ := List.getElem?_of_mem hr
    have hil : i < l.length := by
      rcases Nat.lt_or_ge i l.length with h2 | h2
      · exact h2
      · rw [List.getElem?_eq_none h2] at hi
        exact absurd hi (by simp)
    rcases hww : ws[i]? with _ | w
    · rw [List.getElem?_eq_none_iff] at hww
      omega
    · obtain ⟨lab, hlab, hri⟩ := hidx i w hww
      have h3 : r = PeriodRecord.mk lab := Option.some.inj (hi.symm.trans hri)
      rw [h3]
      exact mkLabel_pattern dpp w lab hlab

/-- Witness for C9 at `daysPerPeriod = 14`, `periodCount = 1`,
`startDate = "2026-01-01"`, on the single returned record. -/
theorem labels_match_pattern_witness :
    fromisoformat "2026-01-01" = some ⟨2026, 1, 1⟩ ∧
    PayPeriods.list 14 1 "2026-01-01" =
      Except.ok [PeriodRecord.mk "e_0101_0114"] ∧
    labelPattern (PeriodRecord.mk "e_0101_0114").pay_period = true :=
  ⟨by decide, by decide,
    labels_match_pattern 14 1 "2026-01-01" ⟨2026, 1, 1⟩ (by decide) (by decide)
      (by decide) [PeriodRecord.mk "e_0101_0114"] (by decide)
      (PeriodRecord.mk "e_0101_0114") (by decide)⟩

/-- Claim C10: whenever `periodCount` is zero or negative, `generate` returns
an empty sequence without parsing the start string, so an arbitrarily
malformed start string still yields an empty sequence with no error. -/
theorem nonpositive_count_never_parses (dpp cnt : Int) (s : String)
    (hc : cnt ≤ 0) : PayPeriods.list dpp cnt s = Except.ok [] :=
  list_eq_nil_of_toNat_zero dpp cnt s (by omega)

/-- Witness for C10 at `periodCount = -7` and a start string that is not a
date at all. -/
theorem nonpositive_count_never_parses_witness :
    (-7 : Int) ≤ 0 ∧ PayPeriods.list 14 (-7) "not-a-date" = Except.ok [] :=
  ⟨by decide, nonpositive_count_never_parses 14 (-7) "not-a-date" (by decide)⟩

end PayPeriodsModel
